import Mathlib

/-!
Verification of the IMU preintegration core of the beam_slam repository.

The repository ships the `ImuState` header
(`beam_models/include/beam_models/frame_to_frame/imu_state.h`), the unit
tests (`bs_common/include/bs_common/utils/utils_tests.h`) and the visual
front end (`VisualInertialOdom`).  The bodies of `ImuState` and
`ImuPreintegration` are not among the provided sources, so those
operations are modelled from the specification and checked against the
behaviour the unit tests pin down.  All scalars are embedded as `ℚ`
(the C++ uses `double`; the claims under study are exact algebraic
identities, counts and control flow, not rounding behaviour).
-/

namespace BeamSlam

/-- A 3-vector with rational components, embedding `Eigen::Vector3d`. -/
structure Vec3 where
  x : ℚ
  y : ℚ
  z : ℚ
deriving DecidableEq, Repr

namespace Vec3

def zero : Vec3 := ⟨0, 0, 0⟩

def add (a b : Vec3) : Vec3 := ⟨a.x + b.x, a.y + b.y, a.z + b.z⟩

def sub (a b : Vec3) : Vec3 := ⟨a.x - b.x, a.y - b.y, a.z - b.z⟩

def smul (c : ℚ) (a : Vec3) : Vec3 := ⟨c * a.x, c * a.y, c * a.z⟩

instance : Zero Vec3 := ⟨zero⟩

instance : Add Vec3 := ⟨add⟩

instance : Sub Vec3 := ⟨sub⟩

instance : SMul ℚ Vec3 := ⟨smul⟩

theorem ext3 (a b : Vec3) (hx : a.x = b.x) (hy : a.y = b.y)
    (hz : a.z = b.z) : a = b := by
  cases a; cases b; cases hx; cases hy; cases hz; rfl

end Vec3

/-- A quaternion with rational components, embedding `Eigen::Quaterniond`
(w is the real part, matching Eigen's `w(), x(), y(), z()` accessors). -/
structure Quat where
  w : ℚ
  x : ℚ
  y : ℚ
  z : ℚ
deriving DecidableEq, Repr

namespace Quat

/-- The identity quaternion (`Eigen::Quaterniond::Identity()`). -/
def one : Quat := ⟨1, 0, 0, 0⟩

/-- Hamilton product, exactly Eigen's `operator*` for quaternions. -/
def mul (a b : Quat) : Quat :=
  ⟨a.w * b.w - a.x * b.x - a.y * b.y - a.z * b.z,
   a.w * b.x + a.x * b.w + a.y * b.z - a.z * b.y,
   a.w * b.y - a.x * b.z + a.y * b.w + a.z * b.x,
   a.w * b.z + a.x * b.y - a.y * b.x + a.z * b.w⟩

instance : Mul Quat := ⟨mul⟩

/-- Quaternion conjugate (`Eigen::Quaterniond::conjugate()`). -/
def conj (a : Quat) : Quat := ⟨a.w, -a.x, -a.y, -a.z⟩

/-- Squared norm `w² + x² + y² + z²` (`squaredNorm()`). -/
def norm2 (a : Quat) : ℚ := a.w * a.w + a.x * a.x + a.y * a.y + a.z * a.z

/-- Vector (imaginary) part, Eigen's `vec()`. -/
def vec (a : Quat) : Vec3 := ⟨a.x, a.y, a.z⟩

theorem ext4 (a b : Quat) (hw : a.w = b.w) (hx : a.x = b.x)
    (hy : a.y = b.y) (hz : a.z = b.z) : a = b := by
  cases a; cases b; cases hw; cases hx; cases hy; cases hz; rfl

end Quat

/-- Embeds a 3-vector as a pure quaternion. -/
def Vec3.toQuat (v : Vec3) : Quat := ⟨0, v.x, v.y, v.z⟩

/-- Action of `q.toRotationMatrix()` on a vector: the matrix is Eigen's
unit-quaternion rotation-matrix formula, applied row by row. -/
def rotv (q : Quat) (v : Vec3) : Vec3 :=
  ⟨(1 - 2 * (q.y * q.y + q.z * q.z)) * v.x + 2 * (q.x * q.y - q.w * q.z) * v.y
     + 2 * (q.x * q.z + q.w * q.y) * v.z,
   2 * (q.x * q.y + q.w * q.z) * v.x + (1 - 2 * (q.x * q.x + q.z * q.z)) * v.y
     + 2 * (q.y * q.z - q.w * q.x) * v.z,
   2 * (q.x * q.z - q.w * q.y) * v.x + 2 * (q.y * q.z + q.w * q.x) * v.y
     + (1 - 2 * (q.x * q.x + q.y * q.y)) * v.z⟩

/-- Action of `q.toRotationMatrix().transpose()` on a vector (the source's
`q1_rot_trans * vec` in `CalculateRelativeMotion`). -/
def rottv (q : Quat) (v : Vec3) : Vec3 :=
  ⟨(1 - 2 * (q.y * q.y + q.z * q.z)) * v.x + 2 * (q.x * q.y + q.w * q.z) * v.y
     + 2 * (q.x * q.z - q.w * q.y) * v.z,
   2 * (q.x * q.y - q.w * q.z) * v.x + (1 - 2 * (q.x * q.x + q.z * q.z)) * v.y
     + 2 * (q.y * q.z + q.w * q.x) * v.z,
   2 * (q.x * q.z + q.w * q.y) * v.x + 2 * (q.y * q.z - q.w * q.x) * v.y
     + (1 - 2 * (q.x * q.x + q.y * q.y)) * v.z⟩

/- Definitional unfolding lemmas for the instance-backed operators. -/

theorem qmul_def (a b : Quat) : a * b = Quat.mul a b := rfl

theorem vadd_def (a b : Vec3) : a + b = Vec3.add a b := rfl

theorem vsub_def (a b : Vec3) : a - b = Vec3.sub a b := rfl

theorem vsmul_def (c : ℚ) (a : Vec3) : c • a = Vec3.smul c a := rfl

theorem vzero_def : (0 : Vec3) = Vec3.zero := rfl

/- Quaternion algebra facts used to settle the claims. -/

theorem quat_mul_assoc (a b c : Quat) : a * b * c = a * (b * c) := by
  apply Quat.ext4 <;> simp only [qmul_def, Quat.mul] <;> ring

theorem quat_conj_mul (a b : Quat) : (a * b).conj = b.conj * a.conj := by
  apply Quat.ext4 <;> simp only [qmul_def, Quat.mul, Quat.conj] <;> ring

theorem quat_norm2_mul (a b : Quat) :
    Quat.norm2 (a * b) = Quat.norm2 a * Quat.norm2 b := by
  simp only [qmul_def, Quat.mul, Quat.norm2]; ring

theorem quat_mul_conj_self (a : Quat) :
    a * a.conj = ⟨Quat.norm2 a, 0, 0, 0⟩ := by
  apply Quat.ext4 <;> simp only [qmul_def, Quat.mul, Quat.conj, Quat.norm2] <;> ring

theorem quat_conj_mul_self (a : Quat) :
    a.conj * a = ⟨Quat.norm2 a, 0, 0, 0⟩ := by
  apply Quat.ext4 <;> simp only [qmul_def, Quat.mul, Quat.conj, Quat.norm2] <;> ring

theorem quat_one_mul (a : Quat) : Quat.one * a = a := by
  apply Quat.ext4 <;> simp only [qmul_def, Quat.mul, Quat.one] <;> ring

theorem quat_mul_one (a : Quat) : a * Quat.one = a := by
  apply Quat.ext4 <;> simp only [qmul_def, Quat.mul, Quat.one] <;> ring

theorem quat_norm2_conj (a : Quat) : Quat.norm2 a.conj = Quat.norm2 a := by
  simp only [Quat.conj, Quat.norm2]; ring

/-- For a unit quaternion the rotation-matrix action agrees with
conjugation `q · (0,v) · q̄` (for general `q` the two differ by
`(‖q‖² − 1) v`, which the unit hypothesis kills). -/
theorem rotv_eq_conj_action (q : Quat) (v : Vec3) (h : Quat.norm2 q = 1) :
    rotv q v = (q * v.toQuat * q.conj).vec := by
  have h2 : q.w * q.w + q.x * q.x + q.y * q.y + q.z * q.z = 1 := h
  apply Vec3.ext3 <;>
    simp only [rotv, qmul_def, Quat.mul, Quat.conj, Quat.vec, Vec3.toQuat]
  · linear_combination (-v.x) * h2
  · linear_combination (-v.y) * h2
  · linear_combination (-v.z) * h2

/-- The real part of `q · (0,v) · q̄` vanishes identically. -/
theorem re_conj_action (q : Quat) (v : Vec3) :
    (q * v.toQuat * q.conj).w = 0 := by
  simp only [qmul_def, Quat.mul, Quat.conj, Vec3.toQuat]; ring

/-- A quaternion with zero real part is its own vector part re-embedded. -/
theorem toQuat_vec (u : Quat) (h : u.w = 0) : (Quat.vec u).toQuat = u := by
  apply Quat.ext4 <;> simp [Vec3.toQuat, Quat.vec, h]

/-- Rotation by a product of unit quaternions composes the rotations. -/
theorem rotv_mul (p q : Quat) (v : Vec3)
    (hp : Quat.norm2 p = 1) (hq : Quat.norm2 q = 1) :
    rotv (p * q) v = rotv p (rotv q v) := by
  have hpq : Quat.norm2 (p * q) = 1 := by
    rw [quat_norm2_mul, hp, hq]; norm_num
  rw [rotv_eq_conj_action (p * q) v hpq, rotv_eq_conj_action q v hq,
    rotv_eq_conj_action p _ hp, toQuat_vec _ (re_conj_action q v),
    quat_conj_mul p q]
  congr 1
  simp only [quat_mul_assoc]

/-- Transposed rotation equals rotation by the conjugate quaternion. -/
theorem rottv_eq_rotv_conj (q : Quat) (v : Vec3) :
    rottv q v = rotv q.conj v := by
  apply Vec3.ext3 <;> simp only [rottv, rotv, Quat.conj] <;> ring

/-- Rotating by the identity quaternion is the identity. -/
theorem rotv_one (v : Vec3) : rotv Quat.one v = v := by
  apply Vec3.ext3 <;> simp only [rotv, Quat.one] <;> ring

/-- For a unit quaternion, `R(q) (R(q)ᵀ v) = v`. -/
theorem rotv_rottv (q : Quat) (v : Vec3) (h : Quat.norm2 q = 1) :
    rotv q (rottv q v) = v := by
  rw [rottv_eq_rotv_conj, ← rotv_mul q q.conj v h (by rw [quat_norm2_conj, h]),
    quat_mul_conj_self, h]
  exact rotv_one v

/-- Rotation action distributes over vector addition. -/
theorem rotv_add (q : Quat) (u v : Vec3) :
    rotv q (u + v) = rotv q u + rotv q v := by
  apply Vec3.ext3 <;>
    simp only [rotv, vadd_def, Vec3.add] <;> ring

/-- Rotation action commutes with scalar multiplication. -/
theorem rotv_smul (q : Quat) (c : ℚ) (v : Vec3) :
    rotv q (c • v) = c • rotv q v := by
  apply Vec3.ext3 <;>
    simp only [rotv, vsmul_def, Vec3.smul] <;> ring

/-!
The State data model.  `ImuState` mirrors
`beam_models/frame_to_frame/imu_state.h`: timestamp, orientation
(quaternion), position, velocity, gyroscope bias, acceleration bias, and
the diagnostic update counter.  The class body is not among the provided
sources; the constructors and setters below are modelled from the header
documentation and pinned by the exact-equality checks of
`TEST(ImuPreintegration, ImuState)` in `utils_tests.h`, which require
every setter to store its arguments verbatim.
-/

/-- Kinematic + bias snapshot at a timestamp (`ImuState`). -/
structure ImuState where
  stamp : ℚ
  q : Quat
  p : Vec3
  v : Vec3
  bg : Vec3
  ba : Vec3
  updates : ℕ
deriving DecidableEq, Repr

theorem ImuState.ext7 (a b : ImuState) (h1 : a.stamp = b.stamp)
    (h2 : a.q = b.q) (h3 : a.p = b.p) (h4 : a.v = b.v) (h5 : a.bg = b.bg)
    (h6 : a.ba = b.ba) (h7 : a.updates = b.updates) : a = b := by
  cases a; cases b
  cases h1; cases h2; cases h3; cases h4; cases h5; cases h6; cases h7; rfl

/-- Modelled from the spec: the `ImuState(const ros::Time&)` constructor
(body not in the provided sources); per the header, "Orientation is set
to identity, while all other variables are set to zero". -/
def defaultImuState (t : ℚ) : ImuState :=
  { stamp := t, q := Quat.one, p := Vec3.zero, v := Vec3.zero,
    bg := Vec3.zero, ba := Vec3.zero, updates := 0 }

/-- Modelled from the spec: `ImuState::SetOrientation(w, x, y, z)` (body
not in the provided sources); the unit test checks the stored data equals
the arguments exactly, so the setter stores them verbatim. -/
def ImuState.setOrientationScalars (s : ImuState) (w x y z : ℚ) : ImuState :=
  { s with q := ⟨w, x, y, z⟩ }

/-- Modelled from the spec: `ImuState::SetOrientation(const double*)`,
reading four scalars `w, x, y, z` from the array, stored verbatim. -/
def ImuState.setOrientationArray (s : ImuState) (a : List ℚ) : ImuState :=
  { s with q := ⟨a.getD 0 0, a.getD 1 0, a.getD 2 0, a.getD 3 0⟩ }

/-- Modelled from the spec: `ImuState::SetOrientation(Eigen::Quaterniond)`,
stored verbatim. -/
def ImuState.setOrientationQuat (s : ImuState) (q : Quat) : ImuState :=
  { s with q := q }

/-!
The Delta / Integrator data model.  The implementation
(`ImuPreintegration` and the `PreIntegrator` it drives) is not among the
provided sources; the claims under study concern only the kinematic part
of the Delta, so covariance and bias-Jacobians are not carried.
-/

/-- One integration step handed to the Integrator: sub-interval length
`dt`, raw angular velocity `w`, raw linear acceleration `a` (the buffered
`ImuData` re-expressed with the sub-interval it spans). -/
structure Sample where
  dt : ℚ
  w : Vec3
  a : Vec3
deriving DecidableEq, Repr

/-- Relative-motion delta over a contiguous sample run (kinematic part of
the spec's Delta: `Δt`, `Δq`, `Δp`, `Δv`). -/
structure Delta where
  t : ℚ
  q : Quat
  p : Vec3
  v : Vec3
deriving DecidableEq, Repr

theorem Delta.extEq (a b : Delta) (h1 : a.t = b.t) (h2 : a.q = b.q)
    (h3 : a.p = b.p) (h4 : a.v = b.v) : a = b := by
  cases a; cases b; cases h1; cases h2; cases h3; cases h4; rfl

/-- The identity Delta, yielded by an empty sample run. -/
def identityDelta : Delta :=
  { t := 0, q := Quat.one, p := Vec3.zero, v := Vec3.zero }

/-- Modelled from the spec: one discrete integration step of the
Integrator (implementation not in the provided sources).  Per spec §4.2:
the rotation composes by the exponential map of the bias-corrected
angular velocity times dt (`expMap` is the exponential map, kept as a
parameter because it is transcendental; every theorem that needs it
assumes only that it produces unit quaternions); the velocity accumulates
the bias-corrected specific force rotated into the reference frame,
scaled by dt; the position accumulates velocity·dt + ½·acceleration·dt²
in the same rotated frame; gravity is not subtracted; biases are frozen
at the interval-start values `bg`, `ba`. -/
def integrateStep (expMap : Vec3 → Quat) (bg ba : Vec3)
    (d : Delta) (s : Sample) : Delta :=
  let acc := rotv d.q (s.a - ba)
  { t := d.t + s.dt,
    q := d.q * expMap (s.dt • (s.w - bg)),
    p := d.p + s.dt • d.v + ((s.dt * s.dt) / 2) • acc,
    v := d.v + s.dt • acc }

/-- Modelled from the spec: the Integrator, folding the steps of a
chronological run into a Delta, starting from the identity Delta. -/
def Integrate (expMap : Vec3 → Quat) (bg ba : Vec3)
    (run : List Sample) : Delta :=
  run.foldl (integrateStep expMap bg ba) identityDelta

/-- Composition of two Deltas over adjacent intervals: the Delta the
Integrator produces over the concatenated run (proved below as
`integrate_append`). -/
def composeDelta (A B : Delta) : Delta :=
  { t := A.t + B.t,
    q := A.q * B.q,
    p := A.p + B.t • A.v + rotv A.q B.p,
    v := A.v + rotv A.q B.v }

/-- Modelled from the spec: `ImuPreintegration::PredictState(delta,
base_state)` (implementation not in the provided sources).  Per spec
§4.3 it is a pure function applying the delta plus gravity compensation
over `Δt`: new orientation `q₁·Δq`, new velocity `v₁ + g·Δt + R(q₁)·Δv`,
new position `p₁ + v₁·Δt + ½·g·Δt² + R(q₁)·Δp`, at timestamp
`t₁ + Δt`; biases carry over from the base state. -/
def PredictState (g : Vec3) (d : Delta) (s : ImuState) : ImuState :=
  { stamp := s.stamp + d.t,
    q := s.q * d.q,
    p := s.p + d.t • s.v + ((d.t * d.t) / 2) • g + rotv s.q d.p,
    v := s.v + d.t • g + rotv s.q d.v,
    bg := s.bg, ba := s.ba, updates := s.updates }

/-- Ground-truth relative motion between two states, a direct translation
of `CalculateRelativeMotion` in `utils_tests.h` (the `imu_preintegration
= true` path): `dt = t₂ − t₁`; `Δq` is the quaternion of the rotation
`R(q₁)ᵀ·R(q₂)` (the source forms the matrix product and converts it to a
quaternion; for unit `q₁` that rotation is represented by `q₁̄ · q₂`);
`Δv = R(q₁)ᵀ·(v₂ − v₁ − g·dt)`;
`Δp = R(q₁)ᵀ·(p₂ − p₁ − v₁·dt − ½·g·dt²)`. -/
def CalculateRelativeMotion (IS1 IS2 : ImuState) (gravity : Vec3) : Delta :=
  let dt := IS2.stamp - IS1.stamp
  { t := dt,
    q := IS1.q.conj * IS2.q,
    v := rottv IS1.q (IS2.v - IS1.v - dt • gravity),
    p := rottv IS1.q (IS2.p - IS1.p - dt • IS1.v - ((dt * dt) / 2) • gravity) }

/- Vector bookkeeping lemmas. -/

theorem vadd_zero (a : Vec3) : a + (0 : Vec3) = a := by
  apply Vec3.ext3 <;> simp only [vadd_def, Vec3.add, vzero_def, Vec3.zero] <;> ring

theorem rotv_zero (q : Quat) : rotv q (0 : Vec3) = 0 := by
  apply Vec3.ext3 <;> simp only [rotv, vzero_def, Vec3.zero] <;> ring

theorem smul_zero_vec (c : ℚ) : c • (0 : Vec3) = 0 := by
  apply Vec3.ext3 <;> simp only [vsmul_def, Vec3.smul, vzero_def, Vec3.zero] <;> ring

theorem zero_smul_vec (a : Vec3) : (0 : ℚ) • a = 0 := by
  apply Vec3.ext3 <;> simp only [vsmul_def, Vec3.smul, vzero_def, Vec3.zero] <;> ring

/- Integrator invariants and compositionality. -/

/-- A step keeps the running orientation unit-norm when the exponential
map produces unit quaternions. -/
theorem integrateStep_norm2 (expMap : Vec3 → Quat)
    (hexp : ∀ u, Quat.norm2 (expMap u) = 1) (bg ba : Vec3)
    (d : Delta) (s : Sample) (hd : Quat.norm2 d.q = 1) :
    Quat.norm2 (integrateStep expMap bg ba d s).q = 1 := by
  simp only [integrateStep, quat_norm2_mul, hd, hexp, one_mul]

/-- The running orientation of any fold of integration steps stays
unit-norm. -/
theorem integrate_fold_norm2 (expMap : Vec3 → Quat)
    (hexp : ∀ u, Quat.norm2 (expMap u) = 1) (bg ba : Vec3) :
    ∀ (run : List Sample) (d : Delta), Quat.norm2 d.q = 1 →
      Quat.norm2 (run.foldl (integrateStep expMap bg ba) d).q = 1 := by
  intro run
  induction run with
  | nil => intro d hd; exact hd
  | cons s rest ih =>
      intro d hd
      exact ih _ (integrateStep_norm2 expMap hexp bg ba d s hd)

theorem integrate_norm2 (expMap : Vec3 → Quat)
    (hexp : ∀ u, Quat.norm2 (expMap u) = 1) (bg ba : Vec3)
    (run : List Sample) :
    Quat.norm2 (Integrate expMap bg ba run).q = 1 :=
  integrate_fold_norm2 expMap hexp bg ba run identityDelta (by
    simp only [identityDelta, Quat.one, Quat.norm2]; norm_num)

/-- Composing with the identity Delta on the right is the identity. -/
theorem composeDelta_identity (A : Delta) : composeDelta A identityDelta = A := by
  apply Delta.extEq <;>
    simp only [composeDelta, identityDelta, quat_mul_one, ← vzero_def,
      rotv_zero, zero_smul_vec, vadd_zero, add_zero]

/-- One integration step commutes with Delta composition on the left. -/
theorem integrateStep_compose (expMap : Vec3 → Quat) (bg ba : Vec3)
    (D E : Delta) (s : Sample)
    (hD : Quat.norm2 D.q = 1) (hE : Quat.norm2 E.q = 1) :
    integrateStep expMap bg ba (composeDelta D E) s
      = composeDelta D (integrateStep expMap bg ba E s) := by
  apply Delta.extEq
  · simp only [integrateStep, composeDelta]; ring
  · simp only [integrateStep, composeDelta, quat_mul_assoc]
  · simp only [integrateStep, composeDelta, rotv_mul _ _ _ hD hE,
      rotv_add, rotv_smul]
    apply Vec3.ext3 <;>
      simp only [vadd_def, Vec3.add, vsmul_def, Vec3.smul] <;> ring
  · simp only [integrateStep, composeDelta, rotv_mul _ _ _ hD hE,
      rotv_add, rotv_smul]
    apply Vec3.ext3 <;>
      simp only [vadd_def, Vec3.add, vsmul_def, Vec3.smul] <;> ring

/-- Folding a run starting from `composeDelta D E` composes `D` with the
fold started from `E`. -/
theorem integrate_fold_compose (expMap : Vec3 → Quat)
    (hexp : ∀ u, Quat.norm2 (expMap u) = 1) (bg ba : Vec3) :
    ∀ (run : List Sample) (D E : Delta),
      Quat.norm2 D.q = 1 → Quat.norm2 E.q = 1 →
      run.foldl (integrateStep expMap bg ba) (composeDelta D E)
        = composeDelta D (run.foldl (integrateStep expMap bg ba) E) := by
  intro run
  induction run with
  | nil => intro D E _ _; rfl
  | cons s rest ih =>
      intro D E hD hE
      simp only [List.foldl_cons]
      rw [integrateStep_compose expMap bg ba D E s hD hE]
      exact ih D _ hD (integrateStep_norm2 expMap hexp bg ba E s hE)

/-- The Delta integrated over a concatenated run is the composition of
the Deltas of the two sub-runs. -/
theorem integrate_append (expMap : Vec3 → Quat)
    (hexp : ∀ u, Quat.norm2 (expMap u) = 1) (bg ba : Vec3)
    (runA runB : List Sample) :
    Integrate expMap bg ba (runA ++ runB)
      = composeDelta (Integrate expMap bg ba runA)
          (Integrate expMap bg ba runB) := by
  have hA : Quat.norm2 (Integrate expMap bg ba runA).q = 1 :=
    integrate_norm2 expMap hexp bg ba runA
  have hid : Quat.norm2 identityDelta.q = 1 := by
    simp only [identityDelta, Quat.one, Quat.norm2]; norm_num
  calc Integrate expMap bg ba (runA ++ runB)
      = runB.foldl (integrateStep expMap bg ba)
          (Integrate expMap bg ba runA) := by
        simp only [Integrate, List.foldl_append]
    _ = runB.foldl (integrateStep expMap bg ba)
          (composeDelta (Integrate expMap bg ba runA) identityDelta) := by
        rw [composeDelta_identity]
    _ = composeDelta (Integrate expMap bg ba runA)
          (Integrate expMap bg ba runB) :=
        integrate_fold_compose expMap hexp bg ba runB _ identityDelta hA hid

/-- Prediction applied twice equals prediction by the composed Delta. -/
theorem predictState_compose (g : Vec3) (A B : Delta) (S : ImuState)
    (hS : Quat.norm2 S.q = 1) (hA : Quat.norm2 A.q = 1) :
    PredictState g B (PredictState g A S)
      = PredictState g (composeDelta A B) S := by
  apply ImuState.ext7
  · simp only [PredictState, composeDelta]; ring
  · simp only [PredictState, composeDelta, quat_mul_assoc]
  · simp only [PredictState, composeDelta, rotv_mul _ _ _ hS hA,
      rotv_add, rotv_smul]
    apply Vec3.ext3 <;>
      simp only [vadd_def, Vec3.add, vsmul_def, Vec3.smul] <;> ring
  · simp only [PredictState, composeDelta, rotv_mul _ _ _ hS hA,
      rotv_add, rotv_smul]
    apply Vec3.ext3 <;>
      simp only [vadd_def, Vec3.add, vsmul_def, Vec3.smul] <;> ring
  · rfl
  · rfl
  · rfl

/-- PredictState inverts the ground-truth relative motion of the test
suite: predicting from `IS1` with the Delta `CalculateRelativeMotion IS1
IS2 g` lands exactly on `IS2`'s kinematic variables, as
`TEST(ImuPreintegration, BaseFunctionality)` asserts. -/
theorem predict_calc_relative_motion (g : Vec3) (IS1 IS2 : ImuState)
    (h1 : Quat.norm2 IS1.q = 1) :
    (PredictState g (CalculateRelativeMotion IS1 IS2 g) IS1).stamp
        = IS2.stamp
      ∧ (PredictState g (CalculateRelativeMotion IS1 IS2 g) IS1).q = IS2.q
      ∧ (PredictState g (CalculateRelativeMotion IS1 IS2 g) IS1).p = IS2.p
      ∧ (PredictState g (CalculateRelativeMotion IS1 IS2 g) IS1).v
        = IS2.v := by
  refine ⟨?_, ?_, ?_, ?_⟩
  · simp only [PredictState, CalculateRelativeMotion]; ring
  · simp only [PredictState, CalculateRelativeMotion, ← quat_mul_assoc,
      quat_mul_conj_self, h1]
    exact quat_one_mul IS2.q
  · simp only [PredictState, CalculateRelativeMotion,
      rotv_rottv _ _ h1]
    apply Vec3.ext3 <;>
      simp only [vadd_def, Vec3.add, vsub_def, Vec3.sub, vsmul_def,
        Vec3.smul] <;> ring
  · simp only [PredictState, CalculateRelativeMotion,
      rotv_rottv _ _ h1]
    apply Vec3.ext3 <;>
      simp only [vadd_def, Vec3.add, vsub_def, Vec3.sub, vsmul_def,
        Vec3.smul] <;> ring

/-!
Variables, constraints and the optimizer-facing Bundle.  fuse assigns
each stamped variable a UUID determined by its type and timestamp; a
variable identity is therefore modelled as (kind, stamp).
-/

/-- The five variable kinds an `ImuState` contributes. -/
inductive VarKind where
  | orientation
  | position
  | velocity
  | gyroBias
  | accelBias
deriving DecidableEq, Repr

/-- Identity of a fuse variable: kind plus timestamp (fuse UUIDs are
deterministic in these). -/
structure VarId where
  kind : VarKind
  stamp : ℚ
deriving DecidableEq, Repr

/-- The UUIDs of the five variables of an `ImuState`, in the order the
test collects them (orientation, position, velocity, gyro bias, accel
bias). -/
def stateVarIds (s : ImuState) : List VarId :=
  [⟨.orientation, s.stamp⟩, ⟨.position, s.stamp⟩, ⟨.velocity, s.stamp⟩,
   ⟨.gyroBias, s.stamp⟩, ⟨.accelBias, s.stamp⟩]

/-- The 16-d mean of a relative IMU-state constraint
`[Δq, Δp, Δv, Δbg, Δba]` (`CalculateRelativeStateDelta` layout). -/
structure RelMean where
  q : Quat
  p : Vec3
  v : Vec3
  bg : Vec3
  ba : Vec3
deriving DecidableEq, Repr

/-- A constraint of a Bundle: either a relative IMU-state constraint or
an absolute prior with the given covariance scale (the source's
`CreatePriorConstraint` uses identity × 1e-9). -/
inductive Constraint where
  | relative (mean : RelMean)
  | priorAbs (covScale : ℚ)
deriving DecidableEq, Repr

/-- The bundle handed to the external optimizer: new variables plus
constraints. -/
structure Bundle where
  vars : List VarId
  constraints : List Constraint
deriving DecidableEq, Repr

/-- A buffered raw inertial sample: timestamp, angular velocity, linear
acceleration (`ImuPreintegration::ImuData`). -/
structure TimedSample where
  t : ℚ
  w : Vec3
  a : Vec3
deriving DecidableEq, Repr

/-- Failures surfaced by the Engine per spec §7. -/
inductive EngineError where
  | rangeError
  | insufficientData
deriving DecidableEq, Repr

/-- Modelled from the spec: the Preintegration Engine
(`ImuPreintegration`, implementation not in the provided sources).  It
owns the chronological sample buffer, the current State, the gravity
vector from its Params, and the epoch flag recording whether the
absolute prior has yet to be emitted since the last `SetStart`. -/
structure Engine where
  gravity : Vec3
  buffer : List TimedSample
  cur : ImuState
  started : Bool
  firstFactor : Bool
deriving DecidableEq, Repr

/-- Re-expresses a chronological buffer sub-run as integration steps,
pairing each sample with the sub-interval since the previous timestamp
(starting from `t0`, the current State's timestamp). -/
def toSteps : ℚ → List TimedSample → List Sample
  | _, [] => []
  | t0, s :: rest => ⟨s.t - t0, s.w, s.a⟩ :: toSteps s.t rest

/-- Modelled from the spec: `ImuPreintegration::SetStart(t, priors...)`
(implementation not in the provided sources).  Per spec §4.3 it resets
the current State to the supplied priors — defaulting to identity
orientation and zero position/velocity/bias — at `t`, discards buffered
samples strictly before `t`, and begins a new epoch (the absolute-prior
flag resets). -/
def SetStart (e : Engine) (t : ℚ) (priors : Option (Quat × Vec3 × Vec3)) :
    Engine :=
  { e with
    cur := match priors with
      | none => defaultImuState t
      | some (o, p, v) =>
          { stamp := t, q := o, p := p, v := v,
            bg := Vec3.zero, ba := Vec3.zero, updates := 0 },
    buffer := e.buffer.filter (fun s => decide (t ≤ s.t)),
    started := true,
    firstFactor := true }

/-- Modelled from the spec: `ImuPreintegration::PopulateBuffer` /
AddSample (implementation not in the provided sources).  Per spec §4.2/
§4.3 a sample whose timestamp is not strictly greater than the
previously accepted sample is rejected and dropped; otherwise it is
appended to the chronological buffer. -/
def PopulateBuffer (e : Engine) (s : TimedSample) : Engine :=
  match e.buffer.getLast? with
  | none => { e with buffer := [s] }
  | some last => if last.t < s.t then { e with buffer := e.buffer ++ [s] } else e

/-- The 16-d relative-constraint mean between the start and predicted end
states, per the spec's Bundle description: the integrated kinematic
delta plus the bias differences. -/
def relMeanOf (startS endS : ImuState) (d : Delta) : RelMean :=
  { q := d.q, p := d.p, v := d.v,
    bg := endS.bg - startS.bg, ba := endS.ba - startS.ba }

/-- The Delta RegisterFactor integrates: the buffered samples up to
`t_end`, re-expressed as steps from the current State's timestamp. -/
def regDelta (expMap : Vec3 → Quat) (e : Engine) (tEnd : ℚ) : Delta :=
  Integrate expMap e.cur.bg e.cur.ba
    (toSteps e.cur.stamp (e.buffer.filter (fun s => decide (s.t ≤ tEnd))))

/-- The end State RegisterFactor predicts. -/
def regEnd (expMap : Vec3 → Quat) (e : Engine) (tEnd : ℚ) : ImuState :=
  PredictState e.gravity (regDelta expMap e tEnd) e.cur

/-- The Bundle RegisterFactor emits: the end State's five new variables
and a relative constraint, plus — on the first call of the epoch — the
start State's five variables and one absolute prior of covariance scale
1e-9. -/
def regBundle (expMap : Vec3 → Quat) (e : Engine) (tEnd : ℚ) : Bundle :=
  { vars :=
      (if e.firstFactor then stateVarIds e.cur else [])
        ++ stateVarIds (regEnd expMap e tEnd),
    constraints :=
      Constraint.relative
          (relMeanOf e.cur (regEnd expMap e tEnd) (regDelta expMap e tEnd))
        :: (if e.firstFactor
            then [Constraint.priorAbs (1 / 1000000000)] else []) }

/-- The advanced Engine after RegisterFactor: current State moved to the
predicted end State, consumed samples discarded, epoch flag lowered. -/
def regEngine (expMap : Vec3 → Quat) (e : Engine) (tEnd : ℚ) : Engine :=
  { e with
    cur := regEnd expMap e tEnd,
    buffer := e.buffer.filter (fun s => decide (tEnd < s.t)),
    firstFactor := false }

/-- Modelled from the spec:
`ImuPreintegration::RegisterNewImuPreintegratedFactor(t_end)`
(implementation not in the provided sources).  Per spec §4.3 it fails
with InsufficientData (no mutation) if no buffered samples reach
`t_end`; otherwise it integrates the buffered samples up to `t_end`,
predicts the end State, emits the Bundle above — with the absolute prior
of covariance scale 1e-9 (the value `CreatePriorConstraint` uses)
exactly on the first call of the epoch — then advances the current
State and discards the consumed samples. -/
def RegisterFactor (expMap : Vec3 → Quat) (e : Engine) (tEnd : ℚ) :
    Except EngineError (Bundle × Engine) :=
  match e.buffer.getLast? with
  | none => .error .insufficientData
  | some last =>
      if last.t < tEnd then .error .insufficientData
      else .ok (regBundle expMap e tEnd, regEngine expMap e tEnd)

/-- Modelled from the spec: `ImuPreintegration::GetPose(time)`
(implementation not in the provided sources).  Per spec §4.3: for `time`
within [current state's timestamp, last buffered sample's timestamp] it
integrates the buffered sub-run up to `time` and returns the
world-to-sensor rotation and translation via PredictState, mutating
nothing (the unchanged Engine is returned alongside the result to make
the absence of mutation checkable); outside that window it fails with
RangeError. -/
def GetPose (expMap : Vec3 → Quat) (e : Engine) (t : ℚ) :
    Except EngineError (Quat × Vec3) × Engine :=
  match e.buffer.getLast? with
  | none => (.error .rangeError, e)
  | some last =>
      if e.cur.stamp ≤ t ∧ t ≤ last.t then
        let run := e.buffer.filter (fun s => decide (s.t ≤ t))
        let d := Integrate expMap e.cur.bg e.cur.ba (toSteps e.cur.stamp run)
        let s := PredictState e.gravity d e.cur
        (.ok (s.q, s.p), e)
      else (.error .rangeError, e)

/-- Runs a sequence of pose queries, threading the Engine returned by
each call into the next (the caller's view of repeated `GetPose` calls
at successive times). -/
def seqGetPose (expMap : Vec3 → Quat) :
    Engine → List ℚ → List (Except EngineError (Quat × Vec3))
  | _, [] => []
  | e, t :: rest =>
      let r := GetPose expMap e t
      r.1 :: seqGetPose expMap r.2 rest

/-- Engine-level wrapper for `PredictState`, returning the (unchanged)
Engine alongside the predicted State: per spec §4.3 PredictState is a
pure function with no side effects on the Engine's buffer or current
State. -/
def enginePredictState (e : Engine) (d : Delta) (s : ImuState) :
    ImuState × Engine :=
  (PredictState e.gravity d s, e)

/-!
Optimizer-solution update of an `ImuState` (claim C5).  The graph
message is modelled as an association list from variable identity to the
solved scalar values.
-/

/-- Association-list lookup by decidable key equality. -/
def assocFind {α β : Type} [DecidableEq α] : List (α × β) → α → Option β
  | [], _ => none
  | (k, v) :: rest, key => if k = key then some v else assocFind rest key

/-- A graph message: solved values keyed by variable identity
(orientation carries 4 scalars w,x,y,z; the others 3). -/
def GraphMsg : Type := List (VarId × List ℚ)

def quatOfList (l : List ℚ) : Quat :=
  ⟨l.getD 0 0, l.getD 1 0, l.getD 2 0, l.getD 3 0⟩

def vecOfList (l : List ℚ) : Vec3 :=
  ⟨l.getD 0 0, l.getD 1 0, l.getD 2 0⟩

/-- Modelled from the spec: `ImuState::Update(graph_msg)` (implementation
not in the provided sources).  Per the header documentation it looks up
this state's variable UUIDs in the solution; if they are present it
overwrites the local orientation, position, velocity and bias values
with the solved values, increments the update counter and returns true;
otherwise it returns false and mutates nothing. -/
def ImuState.update (s : ImuState) (g : GraphMsg) : Bool × ImuState :=
  if (assocFind g ⟨.orientation, s.stamp⟩).isSome
      ∧ (assocFind g ⟨.position, s.stamp⟩).isSome
      ∧ (assocFind g ⟨.velocity, s.stamp⟩).isSome
      ∧ (assocFind g ⟨.gyroBias, s.stamp⟩).isSome
      ∧ (assocFind g ⟨.accelBias, s.stamp⟩).isSome then
    (true,
     { stamp := s.stamp,
       q := quatOfList ((assocFind g ⟨.orientation, s.stamp⟩).getD []),
       p := vecOfList ((assocFind g ⟨.position, s.stamp⟩).getD []),
       v := vecOfList ((assocFind g ⟨.velocity, s.stamp⟩).getD []),
       bg := vecOfList ((assocFind g ⟨.gyroBias, s.stamp⟩).getD []),
       ba := vecOfList ((assocFind g ⟨.accelBias, s.stamp⟩).getD []),
       updates := s.updates + 1 })
  else (false, s)

/-!
The visual front end (`VisualInertialOdom`, `src/unnamed/part_003`).
These functions ARE among the provided sources and are embedded
directly.
-/

/-- `VisualInertialOdom::processIMU`: "indiscriminantly push imu messages
onto its buffer" — a plain `std::queue::push`, no ordering check. -/
def processIMU (buf : List TimedSample) (msg : TimedSample) :
    List TimedSample :=
  buf ++ [msg]

/-- One evaluation of the IMU-drain loop condition in
`VisualInertialOdom::processImage`:
`imu_buffer_.front().header.stamp < img_time && !imu_buffer_.empty()`.
C++ `&&` evaluates its left operand first, so `front()` runs before the
emptiness test; `front()` on an empty `std::queue` is undefined
behaviour, modelled as `none`. -/
def drainCond (buf : List TimedSample) (imgTime : ℚ) : Option Bool :=
  match buf.head? with
  | none => none
  | some m => some (decide (m.t < imgTime) && !buf.isEmpty)

/-!
`VisualInertialOdom::isKeyframe` median-parallax computation
(`src/unnamed/part_003`).  `beam::distance` (Euclidean pixel distance)
is transcendental, so it is a parameter of the embedding; the claim only
concerns the emptiness/indexing behaviour, which is independent of it.
-/

/-- A tracked pixel location. -/
structure Pix where
  u : ℚ
  v : ℚ
deriving DecidableEq, Repr

/-- Insertion of one element into a sorted list (ascending). -/
def insertLe (a : ℚ) : List ℚ → List ℚ
  | [] => [a]
  | b :: rest => if a ≤ b then a :: b :: rest else b :: insertLe a rest

/-- Insertion sort, standing in for `std::sort` on the parallax vector. -/
def sortLe : List ℚ → List ℚ
  | [] => []
  | a :: rest => insertLe a (sortLe rest)

/-- The parallax vector built in `isKeyframe`: for every landmark of the
current frame also seen in the last keyframe, the distance between the
two keypoints, in current-frame iteration order. -/
def parallaxes (dist : Pix → Pix → ℚ) (cur kf : List (ℕ × Pix)) : List ℚ :=
  (cur.filter (fun kp => (assocFind kf kp.1).isSome)).map
    (fun kp => dist kp.2 ((assocFind kf kp.1).getD ⟨0, 0⟩))

/-- The median read `parallaxes[parallaxes.size()/2]` after sorting;
`std::vector::operator[]` out of bounds is undefined behaviour, modelled
as `none`. -/
def medianParallax (dist : Pix → Pix → ℚ) (cur kf : List (ℕ × Pix)) :
    Option ℚ :=
  let ps := sortLe (parallaxes dist cur kf)
  ps.get? (ps.length / 2)

/-!
Helper lemmas shared by the claim theorems.
-/

/-- `GetPose` hands back its Engine untouched in every branch. -/
theorem getPose_snd (expMap : Vec3 → Quat) (e : Engine) (t : ℚ) :
    (GetPose expMap e t).2 = e := by
  rcases h : e.buffer.getLast? with _ | last
  · simp [GetPose, h]
  · by_cases hc : e.cur.stamp ≤ t ∧ t ≤ last.t <;> simp [GetPose, h, hc]

/-!
Concrete inputs used by the witnesses.
-/

/-- A stand-in exponential map producing a concrete unit quaternion. -/
def wExp : Vec3 → Quat := fun _ => ⟨0, 1, 0, 0⟩

def wG : Vec3 := ⟨0, 0, -10⟩

def wS1 : ImuState :=
  { stamp := 0, q := ⟨0, 1, 0, 0⟩, p := ⟨1, 2, 3⟩, v := ⟨4, 5, 6⟩,
    bg := Vec3.zero, ba := Vec3.zero, updates := 0 }

def wS2 : ImuState :=
  { stamp := 2, q := ⟨0, 0, 1, 0⟩, p := ⟨7, 8, 9⟩, v := ⟨1, 0, 1⟩,
    bg := Vec3.zero, ba := Vec3.zero, updates := 0 }

def wRunA : List Sample := [⟨1, ⟨1, 2, 3⟩, ⟨4, 5, 6⟩⟩]

def wRunB : List Sample :=
  [⟨2, ⟨0, 1, 0⟩, ⟨1, 0, 2⟩⟩, ⟨1, ⟨1, 1, 1⟩, ⟨0, 0, 1⟩⟩]

/-- An Engine with one buffered sample at t = 2 and current State at
t = 0. -/
def wEngineBuf : Engine :=
  { gravity := wG, buffer := [⟨2, Vec3.zero, Vec3.zero⟩],
    cur := defaultImuState 0, started := true, firstFactor := true }

/-- The same Engine with the epoch's first factor already emitted. -/
def wEngineBuf2 : Engine := { wEngineBuf with firstFactor := false }

/-- A graph message containing all five variables of a state stamped 0. -/
def wGraph : GraphMsg :=
  [(⟨.orientation, 0⟩, [0, 1, 0, 0]), (⟨.position, 0⟩, [1, 2, 3]),
   (⟨.velocity, 0⟩, [4, 5, 6]), (⟨.gyroBias, 0⟩, [0, 0, 0]),
   (⟨.accelBias, 0⟩, [0, 0, 0])]

/-!
The claims.
-/

/-- Claim C1: PredictState is a pure function: it returns the State at
`base.timestamp + Δt` given by new orientation `q₁·Δq`, new velocity
`v₁ + g·Δt + R(q₁)·Δv`, new position `p₁ + v₁·Δt + ½·g·Δt² + R(q₁)·Δp`
(gravity applied only at prediction time), with no side effect on the
Engine.  Checked against the source's `CalculateRelativeMotion`: for a
unit-orientation base state, predicting with the relative-motion Delta
between `S1` and `S2` lands exactly on `S2`, which is what
`TEST(ImuPreintegration, BaseFunctionality)` asserts. -/
theorem claim_C1 (g : Vec3) (S1 S2 : ImuState) (h1 : Quat.norm2 S1.q = 1) :
    ((PredictState g (CalculateRelativeMotion S1 S2 g) S1).stamp = S2.stamp
      ∧ (PredictState g (CalculateRelativeMotion S1 S2 g) S1).q = S2.q
      ∧ (PredictState g (CalculateRelativeMotion S1 S2 g) S1).p = S2.p
      ∧ (PredictState g (CalculateRelativeMotion S1 S2 g) S1).v = S2.v)
    ∧ (∀ d : Delta,
        (PredictState g d S1).stamp = S1.stamp + d.t
          ∧ (PredictState g d S1).q = S1.q * d.q
          ∧ (PredictState g d S1).v = S1.v + d.t • g + rotv S1.q d.v
          ∧ (PredictState g d S1).p
              = S1.p + d.t • S1.v + ((d.t * d.t) / 2) • g + rotv S1.q d.p)
    ∧ (∀ (e : Engine) (d : Delta) (s : ImuState),
        enginePredictState e d s = (PredictState e.gravity d s, e)) :=
  ⟨predict_calc_relative_motion g S1 S2 h1,
   fun _ => ⟨rfl, rfl, rfl, rfl⟩,
   fun _ _ _ => rfl⟩

/-- Witness for C1 at concrete inputs. -/
theorem claim_C1_witness :
    Quat.norm2 wS1.q = 1
      ∧ (PredictState wG (CalculateRelativeMotion wS1 wS2 wG) wS1).stamp
          = wS2.stamp
      ∧ (PredictState wG (CalculateRelativeMotion wS1 wS2 wG) wS1).q = wS2.q
      ∧ (PredictState wG (CalculateRelativeMotion wS1 wS2 wG) wS1).p = wS2.p
      ∧ (PredictState wG (CalculateRelativeMotion wS1 wS2 wG) wS1).v
          = wS2.v :=
  ⟨by simp [wS1, Quat.norm2],
   (claim_C1 wG wS1 wS2 (by simp [wS1, Quat.norm2])).1⟩

/-- Claim C3: chained prediction equals direct integration over the
concatenated interval: for every base state with unit orientation and
any two sample runs, predicting with the Delta of run B from the state
predicted with the Delta of run A equals predicting with the Delta
integrated over the concatenated run, exactly (the embedding works over
ℚ, so "within numerical tolerance" is sharpened to equality). -/
theorem claim_C3 (expMap : Vec3 → Quat)
    (hexp : ∀ u, Quat.norm2 (expMap u) = 1) (g bg ba : Vec3)
    (S : ImuState) (hS : Quat.norm2 S.q = 1) (runA runB : List Sample) :
    PredictState g (Integrate expMap bg ba runB)
        (PredictState g (Integrate expMap bg ba runA) S)
      = PredictState g (Integrate expMap bg ba (runA ++ runB)) S := by
  rw [integrate_append expMap hexp bg ba runA runB]
  exact predictState_compose g _ _ S hS (integrate_norm2 expMap hexp bg ba runA)

/-- Witness for C3 at concrete inputs. -/
theorem claim_C3_witness :
    (∀ u, Quat.norm2 (wExp u) = 1)
      ∧ Quat.norm2 (defaultImuState 0).q = 1
      ∧ PredictState wG (Integrate wExp Vec3.zero Vec3.zero wRunB)
          (PredictState wG (Integrate wExp Vec3.zero Vec3.zero wRunA)
            (defaultImuState 0))
        = PredictState wG (Integrate wExp Vec3.zero Vec3.zero (wRunA ++ wRunB))
            (defaultImuState 0) :=
  ⟨fun _ => by simp [wExp, Quat.norm2],
   by simp [defaultImuState, Quat.one, Quat.norm2],
   claim_C3 wExp (fun _ => by simp [wExp, Quat.norm2]) wG Vec3.zero Vec3.zero
     (defaultImuState 0) (by simp [defaultImuState, Quat.one, Quat.norm2])
     wRunA wRunB⟩

/-- Claim C6: SetStart without priors leaves the current State equal to
identity orientation, zero position, velocity and biases at `t`;
SetStart with priors leaves the current State exactly equal to the
supplied prior orientation, position and velocity at `t`. -/
theorem claim_C6 (e : Engine) (t : ℚ) :
    ((SetStart e t none).cur = defaultImuState t
      ∧ (SetStart e t none).cur.q = Quat.one
      ∧ (SetStart e t none).cur.p = Vec3.zero
      ∧ (SetStart e t none).cur.v = Vec3.zero
      ∧ (SetStart e t none).cur.bg = Vec3.zero
      ∧ (SetStart e t none).cur.ba = Vec3.zero
      ∧ (SetStart e t none).cur.stamp = t)
    ∧ (∀ (o : Quat) (p v : Vec3),
        (SetStart e t (some (o, p, v))).cur.q = o
          ∧ (SetStart e t (some (o, p, v))).cur.p = p
          ∧ (SetStart e t (some (o, p, v))).cur.v = v
          ∧ (SetStart e t (some (o, p, v))).cur.stamp = t) :=
  ⟨⟨rfl, rfl, rfl, rfl, rfl, rfl, rfl⟩,
   fun _ _ _ => ⟨rfl, rfl, rfl, rfl⟩⟩

/-- Claim C8 (amended): the orientation is unit-norm after construction,
after every SetOrientation form — raw-scalar, quaternion, and c-array —
*whose argument is unit-norm* (the setters store their arguments
verbatim, as the unit test's exact-equality checks require, so a
non-unit argument is stored as-is — see the counterexample), and the
Integrator's Δq is unit-norm (exactly, in this exact-arithmetic
embedding) for every sample run. -/
theorem claim_C8 :
    (∀ t : ℚ, Quat.norm2 (defaultImuState t).q = 1)
    ∧ (∀ (s : ImuState) (w x y z : ℚ), w * w + x * x + y * y + z * z = 1 →
        Quat.norm2 ((s.setOrientationScalars w x y z).q) = 1)
    ∧ (∀ (s : ImuState) (q : Quat), Quat.norm2 q = 1 →
        Quat.norm2 ((s.setOrientationQuat q).q) = 1)
    ∧ (∀ (s : ImuState) (a : List ℚ),
        a.getD 0 0 * a.getD 0 0 + a.getD 1 0 * a.getD 1 0
            + a.getD 2 0 * a.getD 2 0 + a.getD 3 0 * a.getD 3 0 = 1 →
        Quat.norm2 ((s.setOrientationArray a).q) = 1)
    ∧ (∀ expMap : Vec3 → Quat, (∀ u, Quat.norm2 (expMap u) = 1) →
        ∀ (bg ba : Vec3) (run : List Sample),
          Quat.norm2 (Integrate expMap bg ba run).q = 1) := by
  refine ⟨fun t => by simp [defaultImuState, Quat.one, Quat.norm2],
    fun s w x y z h => ?_, fun s q h => h, fun s a h => ?_,
    fun expMap hexp bg ba run => integrate_norm2 expMap hexp bg ba run⟩
  · simpa [ImuState.setOrientationScalars, Quat.norm2] using h
  · simpa [ImuState.setOrientationArray, Quat.norm2] using h

/-- Counterexample for C8 as stated: the raw-scalar `SetOrientation`
stores its arguments verbatim, so setting (2,0,0,0) leaves a non-unit
orientation — the invariant does not hold after *every* setter call. -/
theorem claim_C8_cex :
    Quat.norm2 (((defaultImuState 0).setOrientationScalars 2 0 0 0).q)
      ≠ 1 := by
  simp [defaultImuState, ImuState.setOrientationScalars, Quat.norm2]
  norm_num

/-- Witness for C8 at concrete inputs. -/
theorem claim_C8_witness :
    ((0 : ℚ) * 0 + 1 * 1 + 0 * 0 + 0 * 0 = 1)
      ∧ Quat.norm2 (((defaultImuState 0).setOrientationScalars 0 1 0 0).q) = 1
      ∧ Quat.norm2 ((defaultImuState 0).setOrientationQuat ⟨0, 0, 1, 0⟩).q = 1
      ∧ Quat.norm2 (((defaultImuState 0).setOrientationArray [0, 0, 0, 1]).q)
          = 1
      ∧ (∀ u, Quat.norm2 (wExp u) = 1)
      ∧ Quat.norm2 (Integrate wExp Vec3.zero Vec3.zero wRunA).q = 1 :=
  ⟨by norm_num,
   claim_C8.2.1 (defaultImuState 0) 0 1 0 0 (by norm_num),
   claim_C8.2.2.1 (defaultImuState 0) ⟨0, 0, 1, 0⟩ (by simp [Quat.norm2]),
   claim_C8.2.2.2.1 (defaultImuState 0) [0, 0, 0, 1] (by simp),
   fun _ => by simp [wExp, Quat.norm2],
   claim_C8.2.2.2.2 wExp (fun _ => by simp [wExp, Quat.norm2]) Vec3.zero
     Vec3.zero wRunA⟩

/-- Claim C9: the IMU-drain loop condition of
`VisualInertialOdom::processImage` evaluates `imu_buffer_.front()`
before `!imu_buffer_.empty()`, so evaluating it with an empty buffer
accesses the front of an empty `std::queue` (undefined, modelled as
`none`); with a nonempty buffer it is well-defined and tests whether the
front sample predates the image. -/
theorem claim_C9 :
    (∀ t : ℚ, drainCond [] t = none)
    ∧ (∀ (buf : List TimedSample) (t : ℚ) (m : TimedSample),
        buf.head? = some m → drainCond buf t = some (decide (m.t < t))) := by
  constructor
  · intro t; rfl
  · intro buf t m h
    cases buf with
    | nil => simp at h
    | cons a rest =>
        obtain rfl : a = m := by simpa using h
        simp [drainCond, List.isEmpty]

/-- Witness for C9 at concrete inputs. -/
theorem claim_C9_witness :
    ([(⟨1, Vec3.zero, Vec3.zero⟩ : TimedSample)].head?
        = some ⟨1, Vec3.zero, Vec3.zero⟩)
      ∧ drainCond [⟨1, Vec3.zero, Vec3.zero⟩] 3
          = some (decide ((1 : ℚ) < 3)) :=
  ⟨rfl, claim_C9.2 [⟨1, Vec3.zero, Vec3.zero⟩] 3 ⟨1, Vec3.zero, Vec3.zero⟩ rfl⟩

/-- Claim C10: `isKeyframe` reads `parallaxes[parallaxes.size()/2]`
without an emptiness guard; when the current frame and the last keyframe
share no landmark the parallax vector is empty and index 0 of an empty
vector is accessed (undefined, modelled as `none`); the read is
well-defined only if some landmark is tracked in both frames. -/
theorem claim_C10 (dist : Pix → Pix → ℚ) (cur kf : List (ℕ × Pix)) :
    ((∀ kp ∈ cur, assocFind kf kp.1 = none) →
      parallaxes dist cur kf = [] ∧ medianParallax dist cur kf = none)
    ∧ (medianParallax dist cur kf ≠ none →
        ∃ kp ∈ cur, (assocFind kf kp.1).isSome) := by
  have hmain : (∀ kp ∈ cur, assocFind kf kp.1 = none) →
      parallaxes dist cur kf = [] := by
    intro h
    simp only [parallaxes, List.map_eq_nil_iff]
    rw [List.filter_eq_nil_iff]
    intro a ha
    simp [h a ha]
  constructor
  · intro h
    refine ⟨hmain h, ?_⟩
    simp [medianParallax, hmain h, sortLe]
  · intro hne
    by_contra hno
    push_neg at hno
    refine hne ?_
    have hall : ∀ kp ∈ cur, assocFind kf kp.1 = none := by
      intro kp hkp
      have := hno kp hkp
      simpa [Option.not_isSome_iff_eq_none] using this
    simp [medianParallax, hmain hall, sortLe]

/-- Witness for C10 at concrete inputs. -/
theorem claim_C10_witness :
    (∀ kp ∈ [((1 : ℕ), (⟨0, 0⟩ : Pix))],
        assocFind [((2 : ℕ), (⟨1, 1⟩ : Pix))] kp.1 = none)
      ∧ parallaxes (fun _ _ => 1) [(1, ⟨0, 0⟩)] [(2, ⟨1, 1⟩)] = []
      ∧ medianParallax (fun _ _ => 1) [(1, ⟨0, 0⟩)] [(2, ⟨1, 1⟩)] = none :=
  ⟨by simp [assocFind],
   ((claim_C10 (fun _ _ => 1) [(1, ⟨0, 0⟩)] [(2, ⟨1, 1⟩)]).1
     (by simp [assocFind])).1,
   ((claim_C10 (fun _ _ => 1) [(1, ⟨0, 0⟩)] [(2, ⟨1, 1⟩)]).1
     (by simp [assocFind])).2⟩

/-- Claim C2: the first RegisterFactor call of an epoch (the flag a
SetStart raises) succeeds on sufficient data with a Bundle holding
exactly the ten variables of the Engine's start and end States (two
variable sets of five) and exactly two constraints — one relative, one
absolute prior with covariance scale 1e-9; every subsequent call of the
epoch contributes exactly one new variable set (the end State's five)
and one relative constraint only, and the flag stays lowered. -/
theorem claim_C2 :
    (∀ (e : Engine) (t : ℚ) (pr : Option (Quat × Vec3 × Vec3)),
        (SetStart e t pr).firstFactor = true)
    ∧ (∀ (expMap : Vec3 → Quat) (e : Engine) (tEnd : ℚ) (last : TimedSample),
        e.firstFactor = true → e.buffer.getLast? = some last →
        tEnd ≤ last.t →
        ∃ b e2, RegisterFactor expMap e tEnd = .ok (b, e2)
          ∧ b.vars = stateVarIds e.cur ++ stateVarIds e2.cur
          ∧ b.vars.length = 10
          ∧ (∃ m, b.constraints
              = [Constraint.relative m, Constraint.priorAbs (1 / 1000000000)])
          ∧ e2.firstFactor = false)
    ∧ (∀ (expMap : Vec3 → Quat) (e : Engine) (tEnd : ℚ) (last : TimedSample),
        e.firstFactor = false → e.buffer.getLast? = some last →
        tEnd ≤ last.t →
        ∃ b e2, RegisterFactor expMap e tEnd = .ok (b, e2)
          ∧ b.vars = stateVarIds e2.cur
          ∧ b.vars.length = 5
          ∧ (∃ m, b.constraints = [Constraint.relative m])
          ∧ e2.firstFactor = false) := by
  refine ⟨fun e t pr => rfl, ?_, ?_⟩
  · intro expMap e tEnd last hff hlast hle
    refine ⟨regBundle expMap e tEnd, regEngine expMap e tEnd, ?_, ?_, ?_,
      ⟨relMeanOf e.cur (regEnd expMap e tEnd) (regDelta expMap e tEnd), ?_⟩,
      rfl⟩
    · simp [RegisterFactor, hlast, not_lt.mpr hle]
    · simp [regBundle, regEngine, hff]
    · simp [regBundle, hff, stateVarIds]
    · simp [regBundle, hff]
  · intro expMap e tEnd last hff hlast hle
    refine ⟨regBundle expMap e tEnd, regEngine expMap e tEnd, ?_, ?_, ?_,
      ⟨relMeanOf e.cur (regEnd expMap e tEnd) (regDelta expMap e tEnd), ?_⟩,
      rfl⟩
    · simp [RegisterFactor, hlast, not_lt.mpr hle]
    · simp [regBundle, regEngine, hff]
    · simp [regBundle, hff, stateVarIds]
    · simp [regBundle, hff]

/-- Witness for C2 at concrete inputs: the first call after SetStart and
a subsequent call of the same epoch. -/
theorem claim_C2_witness :
    (SetStart wEngineBuf 0 none).firstFactor = true
      ∧ (∃ b e2, RegisterFactor wExp wEngineBuf 2 = .ok (b, e2)
          ∧ b.vars = stateVarIds wEngineBuf.cur ++ stateVarIds e2.cur
          ∧ b.vars.length = 10
          ∧ (∃ m, b.constraints
              = [Constraint.relative m, Constraint.priorAbs (1 / 1000000000)])
          ∧ e2.firstFactor = false)
      ∧ (∃ b e2, RegisterFactor wExp wEngineBuf2 2 = .ok (b, e2)
          ∧ b.vars = stateVarIds e2.cur
          ∧ b.vars.length = 5
          ∧ (∃ m, b.constraints = [Constraint.relative m])
          ∧ e2.firstFactor = false) :=
  ⟨claim_C2.1 wEngineBuf 0 none,
   claim_C2.2.1 wExp wEngineBuf 2 ⟨2, Vec3.zero, Vec3.zero⟩ rfl rfl
     (by norm_num),
   claim_C2.2.2 wExp wEngineBuf2 2 ⟨2, Vec3.zero, Vec3.zero⟩ rfl rfl
     (by norm_num)⟩

/-- Claim C4 (amended): the ordering rule is enforced at the
preintegration Engine's buffer population — a sample whose timestamp is
not strictly greater than the last accepted sample leaves the Engine
completely unchanged, so every subsequently produced Delta and State is
identical to the run without the offending sample — but it is NOT
enforced at `VisualInertialOdom::processIMU`, which pushes every
incoming message onto its queue indiscriminately (see the
counterexample). -/
theorem claim_C4 :
    (∀ (e : Engine) (s last : TimedSample),
        e.buffer.getLast? = some last → s.t ≤ last.t →
        PopulateBuffer e s = e)
    ∧ (∀ (buf : List TimedSample) (m : TimedSample),
        processIMU buf m = buf ++ [m]) := by
  refine ⟨?_, fun buf m => rfl⟩
  intro e s last hlast hle
  simp [PopulateBuffer, hlast, not_lt.mpr hle]

/-- Counterexample for C4 as stated: at the cited sample-ingestion path
(`VisualInertialOdom::processIMU`), a sample stamped 1 arriving after a
sample stamped 2 is appended rather than rejected — the buffer differs
from the one produced with the offending sample absent. -/
theorem claim_C4_cex :
    processIMU [⟨2, Vec3.zero, Vec3.zero⟩] ⟨1, Vec3.zero, Vec3.zero⟩
        = [⟨2, Vec3.zero, Vec3.zero⟩, ⟨1, Vec3.zero, Vec3.zero⟩]
      ∧ processIMU [⟨2, Vec3.zero, Vec3.zero⟩] ⟨1, Vec3.zero, Vec3.zero⟩
        ≠ [⟨2, Vec3.zero, Vec3.zero⟩] :=
  ⟨rfl, by simp [processIMU]⟩

/-- Witness for C4 at concrete inputs. -/
theorem claim_C4_witness :
    wEngineBuf.buffer.getLast? = some ⟨2, Vec3.zero, Vec3.zero⟩
      ∧ ((1 : ℚ) ≤ 2)
      ∧ PopulateBuffer wEngineBuf ⟨1, Vec3.zero, Vec3.zero⟩ = wEngineBuf :=
  ⟨rfl, by norm_num,
   claim_C4.1 wEngineBuf ⟨1, Vec3.zero, Vec3.zero⟩ ⟨2, Vec3.zero, Vec3.zero⟩
     rfl (by norm_num)⟩

/-- Claim C5: if the optimizer solution does not contain all of this
state's variable identifiers, Update returns false and changes nothing
(values and update counter alike); if it contains them, Update
overwrites orientation, position, velocity and both biases with the
solved values, returns true, and increments the update counter by
exactly one. -/
theorem claim_C5 (s : ImuState) (g : GraphMsg) :
    (¬((assocFind g ⟨.orientation, s.stamp⟩).isSome
        ∧ (assocFind g ⟨.position, s.stamp⟩).isSome
        ∧ (assocFind g ⟨.velocity, s.stamp⟩).isSome
        ∧ (assocFind g ⟨.gyroBias, s.stamp⟩).isSome
        ∧ (assocFind g ⟨.accelBias, s.stamp⟩).isSome) →
      s.update g = (false, s))
    ∧ (((assocFind g ⟨.orientation, s.stamp⟩).isSome
        ∧ (assocFind g ⟨.position, s.stamp⟩).isSome
        ∧ (assocFind g ⟨.velocity, s.stamp⟩).isSome
        ∧ (assocFind g ⟨.gyroBias, s.stamp⟩).isSome
        ∧ (assocFind g ⟨.accelBias, s.stamp⟩).isSome) →
      (s.update g).1 = true
        ∧ (s.update g).2.stamp = s.stamp
        ∧ (s.update g).2.q
            = quatOfList ((assocFind g ⟨.orientation, s.stamp⟩).getD [])
        ∧ (s.update g).2.p
            = vecOfList ((assocFind g ⟨.position, s.stamp⟩).getD [])
        ∧ (s.update g).2.v
            = vecOfList ((assocFind g ⟨.velocity, s.stamp⟩).getD [])
        ∧ (s.update g).2.bg
            = vecOfList ((assocFind g ⟨.gyroBias, s.stamp⟩).getD [])
        ∧ (s.update g).2.ba
            = vecOfList ((assocFind g ⟨.accelBias, s.stamp⟩).getD [])
        ∧ (s.update g).2.updates = s.updates + 1) := by
  constructor
  · intro h
    simp only [ImuState.update, if_neg h]
  · intro h
    simp [ImuState.update, if_pos h]

/-- Witness for C5 at concrete inputs: an empty solution leaves the
state untouched and reports failure; a complete solution overwrites and
bumps the counter. -/
theorem claim_C5_witness :
    (defaultImuState 0).update [] = (false, defaultImuState 0)
      ∧ ((defaultImuState 0).update wGraph).1 = true
      ∧ ((defaultImuState 0).update wGraph).2.updates = 1 :=
  ⟨(claim_C5 (defaultImuState 0) []).1 (by simp [assocFind]),
   ((claim_C5 (defaultImuState 0) wGraph).2
     (by simp [assocFind, wGraph, defaultImuState])).1,
   ((claim_C5 (defaultImuState 0) wGraph).2
     (by simp [assocFind, wGraph, defaultImuState])).2.2.2.2.2.2.2⟩

/-- Claim C7: GetPose is read-only — it returns its Engine unchanged in
every branch, so repeated calls at any sequence of times return exactly
what fresh calls would; for a query inside [current state's timestamp,
last buffered sample's timestamp] it returns the rotation and
translation of the state PredictState yields from the integrated
sub-run; outside that window (including an empty buffer) it fails with
RangeError instead of substituting a default. -/
theorem claim_C7 (expMap : Vec3 → Quat) :
    (∀ (e : Engine) (t : ℚ), (GetPose expMap e t).2 = e)
    ∧ (∀ (e : Engine) (t : ℚ) (last : TimedSample),
        e.buffer.getLast? = some last → e.cur.stamp ≤ t → t ≤ last.t →
        (GetPose expMap e t).1
          = .ok ((PredictState e.gravity
                (Integrate expMap e.cur.bg e.cur.ba
                  (toSteps e.cur.stamp
                    (e.buffer.filter (fun s => decide (s.t ≤ t))))) e.cur).q,
              (PredictState e.gravity
                (Integrate expMap e.cur.bg e.cur.ba
                  (toSteps e.cur.stamp
                    (e.buffer.filter (fun s => decide (s.t ≤ t))))) e.cur).p))
    ∧ (∀ (e : Engine) (t : ℚ) (last : TimedSample),
        e.buffer.getLast? = some last →
        ¬(e.cur.stamp ≤ t ∧ t ≤ last.t) →
        (GetPose expMap e t).1 = .error .rangeError)
    ∧ (∀ (e : Engine) (t : ℚ), e.buffer.getLast? = none →
        (GetPose expMap e t).1 = .error .rangeError)
    ∧ (∀ (e : Engine) (ts : List ℚ),
        seqGetPose expMap e ts = ts.map (fun t => (GetPose expMap e t).1)) := by
  refine ⟨getPose_snd expMap, ?_, ?_, ?_, ?_⟩
  · intro e t last hlast h1 h2
    simp [GetPose, hlast, h1, h2]
  · intro e t last hlast hw
    simp [GetPose, hlast, hw]
  · intro e t hlast
    simp [GetPose, hlast]
  · intro e ts
    induction ts with
    | nil => rfl
    | cons t rest ih =>
        simp [seqGetPose, getPose_snd expMap e t, ih]

/-- Witness for C7 at concrete inputs: an in-window query, an
out-of-window query, and the unchanged-Engine guarantee. -/
theorem claim_C7_witness :
    wEngineBuf.buffer.getLast? = some ⟨2, Vec3.zero, Vec3.zero⟩
      ∧ ((0 : ℚ) ≤ 1) ∧ ((1 : ℚ) ≤ 2)
      ∧ (GetPose wExp wEngineBuf 1).1
          = .ok ((PredictState wEngineBuf.gravity
                (Integrate wExp wEngineBuf.cur.bg wEngineBuf.cur.ba
                  (toSteps wEngineBuf.cur.stamp
                    (wEngineBuf.buffer.filter
                      (fun s => decide (s.t ≤ 1))))) wEngineBuf.cur).q,
              (PredictState wEngineBuf.gravity
                (Integrate wExp wEngineBuf.cur.bg wEngineBuf.cur.ba
                  (toSteps wEngineBuf.cur.stamp
                    (wEngineBuf.buffer.filter
                      (fun s => decide (s.t ≤ 1))))) wEngineBuf.cur).p)
      ∧ (GetPose wExp wEngineBuf 3).1 = .error .rangeError
      ∧ (GetPose wExp wEngineBuf 1).2 = wEngineBuf :=
  ⟨rfl, by norm_num, by norm_num,
   (claim_C7 wExp).2.1 wEngineBuf 1 ⟨2, Vec3.zero, Vec3.zero⟩ rfl
     (by norm_num [wEngineBuf, defaultImuState]) (by norm_num),
   (claim_C7 wExp).2.2.1 wEngineBuf 3 ⟨2, Vec3.zero, Vec3.zero⟩ rfl
     (by norm_num),
   (claim_C7 wExp).1 wEngineBuf 1⟩

end BeamSlam
